import Mathlib

/-!
# Todo service (`main.go`): handlers over a document collection

The four request handlers of `main.go` (`getTodos`, `createTodo`, `updateTodo`,
`deleteTodo`) are embedded as pure functions from the collection state to a
response and a new collection state.

The handlers call three libraries that are not part of the repository: the
MongoDB driver (`Find`, `Cursor.All`, `InsertOne`, `UpdateOne`, `DeleteOne`),
the `primitive.ObjectID` type with `ObjectIDFromHex`, and the HTTP framework
(`BodyParser`, `Status`, `JSON`).  They are modelled explicitly below:

* the collection is the list of its documents in the store's natural order,
  together with a log of the store operations issued so far;
* every store call takes the infrastructure error it is going to return, if
  any (`fault`); a call that returns an error leaves the documents unchanged;
* `InsertOne` takes the identifier the driver would generate (`newID`); the
  `_id` index is unique, so inserting an `_id` that is already present is a
  store error;
* a Go slice is `none` when it is `nil` and `some xs` otherwise; the JSON
  encoder renders a nil slice as `null` and a non-nil one as an array.
-/

namespace GoApi

/-! ## Identifiers -/

/-- The driver's `primitive.ObjectID`, a `[12]byte`. -/
structure ObjectID where
  bytes : List (Fin 256)
  size : bytes.length = 12

instance : DecidableEq ObjectID := fun a b =>
  decidable_of_iff (a.bytes = b.bytes) (by cases a; cases b; simp)

/-- The zero value `primitive.NilObjectID`. -/
def NilObjectID : ObjectID := ⟨List.replicate 12 0, rfl⟩

/-- Go `ObjectID.IsZero`: `id == NilObjectID`. -/
def ObjectID.IsZero (id : ObjectID) : Bool := decide (id = NilObjectID)

/-- Go `encoding/hex.fromHexChar`: the value of one hexadecimal digit, either case. -/
def fromHexChar (c : Char) : Option Nat :=
  if '0'.toNat ≤ c.toNat ∧ c.toNat ≤ '9'.toNat then some (c.toNat - '0'.toNat)
  else if 'a'.toNat ≤ c.toNat ∧ c.toNat ≤ 'f'.toNat then some (c.toNat - 'a'.toNat + 10)
  else if 'A'.toNat ≤ c.toNat ∧ c.toNat ≤ 'F'.toNat then some (c.toNat - 'A'.toNat + 10)
  else none

/-- A character is a hexadecimal digit (`0-9`, `a-f`, `A-F`). -/
def isHexChar (c : Char) : Bool := (fromHexChar c).isSome

/-- Go `encoding/hex.Decode`: two digits per byte, high nibble first; fails on a
character that is not a hexadecimal digit and on an odd length.  A character
outside ASCII is encoded in bytes that are not hexadecimal digits, so decoding
characters and decoding bytes fail on the same strings. -/
def hexDecode : List Char → Option (List (Fin 256))
  | [] => some []
  | [_] => none
  | p :: q :: rest =>
    match fromHexChar p, fromHexChar q with
    | some a, some b =>
      match hexDecode rest with
      | some bs => some (Fin.ofNat (a * 16 + b) :: bs)
      | none => none
    | _, _ => none

/-- The driver's `primitive.ObjectIDFromHex`: the string must be 24 bytes long
(`len(s) != 24` is an error) and decode as hexadecimal. -/
def ObjectIDFromHex (s : String) : Option ObjectID :=
  if s.utf8ByteSize ≠ 24 then none
  else
    match hexDecode s.data with
    | none => none
    | some bs => if h : bs.length = 12 then some ⟨bs, h⟩ else none

/-! ## Data model -/

/-- The `Todo` struct of `main.go` (lines 17-21). -/
structure Todo where
  ID : ObjectID
  Completed : Bool
  Body : String
  deriving DecidableEq

/-- The zero value that `new(Todo)` allocates. -/
def Todo.zero : Todo := ⟨NilObjectID, false, ""⟩

/-- A Go slice: `none` is the nil slice, `some xs` a non-nil slice holding `xs`. -/
abbrev GoSlice (α : Type) := Option (List α)

/-- The elements of a slice; a nil slice has none. -/
def GoSlice.elems {α : Type} : GoSlice α → List α
  | none => []
  | some xs => xs

/-! ## The document store -/

/-- A store operation issued on the collection. -/
inductive StoreOp
  | find
  | insertOne (doc : Todo)
  | updateOne (id : ObjectID)
  | deleteOne (id : ObjectID)
  deriving DecidableEq

/-- The `todos` collection: its documents in natural order, and the operations
issued on it so far. -/
structure Store where
  docs : List Todo
  log : List StoreOp
  deriving DecidableEq

/-- The collection with no documents, on which nothing has been issued. -/
def Store.empty : Store := ⟨[], []⟩

/-- A cursor over the documents matched by a `Find`. -/
structure Cursor where
  batch : List Todo
  deriving DecidableEq

/-- The filter `bson.M{"_id": id}`. -/
def matchesID (id : ObjectID) (t : Todo) : Bool := decide (t.ID = id)

/-- The driver's `Collection.Find` with the empty filter `bson.M{}`: a cursor over
all documents, or the store's error. -/
def Store.Find (fault : Option String) (st : Store) : Except String Cursor × Store :=
  let st1 : Store := { st with log := st.log ++ [StoreOp.find] }
  match fault with
  | some e => (.error e, st1)
  | none => (.ok ⟨st.docs⟩, st1)

/-- The driver's `Cursor.All(ctx, &results)`: decodes every document into the
slice, overwriting it from index 0, and stores back `slice[0:n]`.  With no
document a nil slice stays nil. -/
def Cursor.All (fault : Option String) (cursor : Cursor) (results : GoSlice Todo) :
    Except String (GoSlice Todo) :=
  match fault with
  | some e => .error e
  | none =>
    match cursor.batch with
    | [] => .ok (results.map (fun _ => []))
    | t :: ts => .ok (some (t :: ts))

/-- The write error of the unique `_id` index. -/
def duplicateKeyError : String := "E11000 duplicate key error"

/-- The driver's `Collection.InsertOne`.  The field `_id` is tagged `omitempty`,
so a zero `ID` is left out of the document and the driver generates one
(`newID`); a non-zero `ID` is inserted as given.  The `_id` index is unique.
Returns `InsertedID`. -/
def Store.InsertOne (fault : Option String) (newID : ObjectID) (doc : Todo) (st : Store) :
    Except String ObjectID × Store :=
  let st1 : Store := { st with log := st.log ++ [StoreOp.insertOne doc] }
  match fault with
  | some e => (.error e, st1)
  | none =>
    let id := if doc.ID.IsZero then newID else doc.ID
    if st.docs.any (matchesID id) then (.error duplicateKeyError, st1)
    else (.ok id, { st1 with docs := st.docs ++ [{ doc with ID := id }] })

/-- The update `{"$set": {"completed": v}}` applied to the first document with the
given `_id`. -/
def setCompletedFirst (id : ObjectID) (v : Bool) : List Todo → List Todo
  | [] => []
  | t :: ts =>
    if matchesID id t then { t with Completed := v } :: ts
    else t :: setCompletedFirst id v ts

/-- The driver's `Collection.UpdateOne` with filter `{"_id": id}` and update
`{"$set": {"completed": v}}`.  Returns `MatchedCount`. -/
def Store.UpdateOne (fault : Option String) (id : ObjectID) (v : Bool) (st : Store) :
    Except String Nat × Store :=
  let st1 : Store := { st with log := st.log ++ [StoreOp.updateOne id] }
  match fault with
  | some e => (.error e, st1)
  | none =>
    if st.docs.any (matchesID id) then
      (.ok 1, { st1 with docs := setCompletedFirst id v st.docs })
    else (.ok 0, st1)

/-- The driver's `Collection.DeleteOne` with filter `{"_id": id}`: removes the
first matching document.  Returns `DeletedCount`. -/
def Store.DeleteOne (fault : Option String) (id : ObjectID) (st : Store) :
    Except String Nat × Store :=
  let st1 : Store := { st with log := st.log ++ [StoreOp.deleteOne id] }
  match fault with
  | some e => (.error e, st1)
  | none =>
    if st.docs.any (matchesID id) then
      (.ok 1, { st1 with docs := st.docs.eraseP (matchesID id) })
    else (.ok 0, st1)

/-! ## Requests and responses -/

/-- What the body of a create request holds, as `c.BodyParser` sees it: either it
cannot be parsed into a `Todo`, or it parses and carries some of the fields
`_id`, `completed`, `body`. -/
inductive RequestBody
  | unparseable
  | fields (id : Option ObjectID) (completed : Option Bool) (body : Option String)
  deriving DecidableEq

/-- The framework's `c.BodyParser(todo)`: decodes the fields present in the request
into the struct and leaves the others as they are. -/
def BodyParser (req : RequestBody) (todo : Todo) : Except String Todo :=
  match req with
  | .unparseable => .error "Unprocessable Entity"
  | .fields id completed body =>
    .ok { ID := id.getD todo.ID
          Completed := completed.getD todo.Completed
          Body := body.getD todo.Body }

/-- The value handed to `c.JSON`. -/
inductive Payload
  | errorMap (msg : String)
  | successMap (ok : Bool)
  | todo (t : Todo)
  | todos (ts : GoSlice Todo)
  deriving DecidableEq

/-- An HTTP response: status code and JSON payload. -/
structure Response where
  status : Nat
  body : Payload
  deriving DecidableEq

/-- The status of a response on which `c.Status` was not called. -/
def statusOK : Nat := 200

/-! ## The handlers -/

/-- `getTodos` (main.go lines 66-79). -/
def getTodos (findFault allFault : Option String) (st : Store) : Response × Store :=
  let todos : GoSlice Todo := none
  match st.Find findFault with
  | (.error err, st1) => (⟨500, .errorMap err⟩, st1)
  | (.ok cursor, st1) =>
    match cursor.All allFault todos with
    | .error err => (⟨500, .errorMap err⟩, st1)
    | .ok todos => (⟨statusOK, .todos todos⟩, st1)

/-- `createTodo` (main.go lines 81-98). -/
def createTodo (fault : Option String) (newID : ObjectID) (req : RequestBody) (st : Store) :
    Response × Store :=
  match BodyParser req Todo.zero with
  | .error _ => (⟨400, .errorMap "Invalid request body"⟩, st)
  | .ok todo =>
    if todo.Body = "" then (⟨400, .errorMap "Todo body is required"⟩, st)
    else
      match st.InsertOne fault newID todo with
      | (.error err, st1) => (⟨500, .errorMap err⟩, st1)
      | (.ok insertedID, st1) => (⟨201, .todo { todo with ID := insertedID }⟩, st1)

/-- `updateTodo` (main.go lines 100-121). -/
def updateTodo (fault : Option String) (idParam : String) (st : Store) : Response × Store :=
  match ObjectIDFromHex idParam with
  | none => (⟨400, .errorMap "Invalid ID format"⟩, st)
  | some id =>
    match st.UpdateOne fault id true with
    | (.error err, st1) => (⟨500, .errorMap err⟩, st1)
    | (.ok matchedCount, st1) =>
      if matchedCount = 0 then (⟨404, .errorMap "Todo not found"⟩, st1)
      else (⟨statusOK, .successMap true⟩, st1)

/-- `deleteTodo` (main.go lines 123-139). -/
def deleteTodo (fault : Option String) (idParam : String) (st : Store) : Response × Store :=
  match ObjectIDFromHex idParam with
  | none => (⟨400, .errorMap "Invalid ID format"⟩, st)
  | some id =>
    match st.DeleteOne fault id with
    | (.error err, st1) => (⟨500, .errorMap err⟩, st1)
    | (.ok deletedCount, st1) =>
      if deletedCount = 0 then (⟨404, .errorMap "Todo not found"⟩, st1)
      else (⟨statusOK, .successMap true⟩, st1)

/-! ## JSON encoding of responses -/

/-- Go `ObjectID.Hex`: two lower-case hexadecimal digits per byte. -/
def ObjectID.Hex (id : ObjectID) : String :=
  String.mk (id.bytes.flatMap (fun b => [Nat.digitChar (b.val / 16), Nat.digitChar (b.val % 16)]))

/-- A JSON scalar. -/
inductive JSONScalar
  | bool (b : Bool)
  | string (s : String)
  deriving DecidableEq

/-- The JSON documents the service can emit: `null`, an object of scalars, or an
array of such objects. -/
inductive JSON
  | null
  | object (members : List (String × JSONScalar))
  | array (items : List (List (String × JSONScalar)))
  deriving DecidableEq

/-- The members of a `Todo` under its `json` tags: `_id`, `completed`, `body`. -/
def Todo.members (t : Todo) : List (String × JSONScalar) :=
  [("_id", .string t.ID.Hex), ("completed", .bool t.Completed), ("body", .string t.Body)]

/-- Go `encoding/json.Marshal` on the values the handlers pass to `c.JSON`: a nil
slice is encoded as `null`, a non-nil slice as an array. -/
def Payload.marshal : Payload → JSON
  | .errorMap msg => .object [("error", .string msg)]
  | .successMap ok => .object [("success", .bool ok)]
  | .todo t => .object t.members
  | .todos none => .null
  | .todos (some ts) => .array (ts.map Todo.members)

/-! ## Sequences of calls -/

/-- One call of `createTodo`: the request and the store's behaviour during it. -/
structure CreateCall where
  fault : Option String
  newID : ObjectID
  req : RequestBody

/-- One call of `deleteTodo`: the path parameter and the store's behaviour during it. -/
structure DeleteCall where
  fault : Option String
  idParam : String

/-- Runs `createTodo` for each call in turn; returns the responses in order and the
final collection. -/
def runCreates : List CreateCall → Store → List Response × Store
  | [], st => ([], st)
  | c :: cs, st =>
    let r := createTodo c.fault c.newID c.req st
    let rest := runCreates cs r.2
    (r.1 :: rest.1, rest.2)

/-- Runs `deleteTodo` for each call in turn; returns the responses in order and the
final collection. -/
def runDeletes : List DeleteCall → Store → List Response × Store
  | [], st => ([], st)
  | d :: ds, st =>
    let r := deleteTodo d.fault d.idParam st
    let rest := runDeletes ds r.2
    (r.1 :: rest.1, rest.2)

/-- The identifiers of the documents of a collection. -/
def Store.ids (st : Store) : List ObjectID := st.docs.map Todo.ID

/-- The data-model invariant: every document has a non-empty body and no two
documents share an id. -/
def Store.Invariant (st : Store) : Prop :=
  (∀ t ∈ st.docs, t.Body ≠ "") ∧ st.ids.Nodup

instance (st : Store) : Decidable st.Invariant := by
  unfold Store.Invariant; infer_instance

/-- An identifier whose first eleven bytes are zero, for concrete examples. -/
def sampleID (n : Fin 256) : ObjectID := ⟨[0, 0, 0, 0, 0, 0, 0, 0, 0, 0, 0, n], rfl⟩

/-- Two create requests, for concrete examples. -/
def sampleCreates : List CreateCall :=
  [⟨none, sampleID 7, .fields none none (some "buy milk")⟩,
   ⟨none, sampleID 8, .fields none (some true) (some "walk dog")⟩]

/-- One delete request, for concrete examples. -/
def sampleDeletes : List DeleteCall := [⟨none, "000000000000000000000007"⟩]

/-! ## Identifier parsing -/

theorem fromHexChar_toNat_le {c : Char} (h : isHexChar c = true) : c.toNat ≤ 127 := by
  unfold isHexChar fromHexChar at h
  split_ifs at h with h1 h2 h3
  · have : '9'.toNat = 57 := by decide
    omega
  · have : 'f'.toNat = 102 := by decide
    omega
  · have : 'F'.toNat = 70 := by decide
    omega
  · simp at h

theorem utf8Size_of_isHexChar {c : Char} (h : isHexChar c = true) : c.utf8Size = 1 := by
  have h1 := fromHexChar_toNat_le h
  unfold Char.utf8Size
  have : c.val ≤ 127 := by
    show c.val.toNat ≤ 127
    exact h1
  simp [this]

theorem utf8Len_of_hex : ∀ cs : List Char, (∀ c ∈ cs, isHexChar c = true) →
    String.utf8Len cs = cs.length
  | [], _ => rfl
  | c :: cs, h => by
    have h1 := utf8Len_of_hex cs (fun x hx => h x (List.mem_cons_of_mem _ hx))
    have h2 := utf8Size_of_isHexChar (h c (List.mem_cons_self _ _))
    rw [String.utf8Len_cons, h1, h2, List.length_cons]

theorem utf8ByteSize_eq (s : String) : s.utf8ByteSize = String.utf8Len s.data := by
  cases s; simp

theorem hexDecode_some : ∀ (cs : List Char) (bs : List (Fin 256)), hexDecode cs = some bs →
    (∀ c ∈ cs, isHexChar c = true) ∧ cs.length = 2 * bs.length
  | [], bs, h => by
    simp [hexDecode] at h
    subst h
    simp
  | [_], bs, h => by simp [hexDecode] at h
  | p :: q :: rest, bs, h => by
    unfold hexDecode at h
    cases hp : fromHexChar p with
    | none => simp [hp] at h
    | some a =>
      cases hq : fromHexChar q with
      | none => simp [hp, hq] at h
      | some b =>
        cases hr : hexDecode rest with
        | none => simp [hp, hq, hr] at h
        | some bs1 =>
          simp [hp, hq, hr] at h
          subst h
          obtain ⟨h1, h2⟩ := hexDecode_some rest bs1 hr
          refine ⟨?_, ?_⟩
          · intro c hc
            simp only [List.mem_cons] at hc
            rcases hc with rfl | rfl | hc
            · simp [isHexChar, hp]
            · simp [isHexChar, hq]
            · exact h1 c hc
          · simp [h2]; omega

theorem hexDecode_of_hex : ∀ (n : Nat) (cs : List Char), cs.length = 2 * n →
    (∀ c ∈ cs, isHexChar c = true) → ∃ bs, hexDecode cs = some bs ∧ bs.length = n
  | 0, cs, hl, _ => by
    have : cs = [] := List.length_eq_zero.mp (by omega)
    subst this
    exact ⟨[], rfl, rfl⟩
  | n + 1, [], hl, _ => by simp at hl
  | n + 1, [_], hl, _ => by simp at hl; omega
  | n + 1, p :: q :: rest, hl, h => by
    have hl1 : rest.length = 2 * n := by simp at hl; omega
    obtain ⟨bs, hbs, hlen⟩ := hexDecode_of_hex n rest hl1
      (fun c hc => h c (by simp [hc]))
    have hp : isHexChar p = true := h p (by simp)
    have hq : isHexChar q = true := h q (by simp)
    unfold isHexChar at hp hq
    obtain ⟨a, ha⟩ := Option.isSome_iff_exists.mp hp
    obtain ⟨b, hb⟩ := Option.isSome_iff_exists.mp hq
    refine ⟨Fin.ofNat (a * 16 + b) :: bs, ?_, by simp [hlen]⟩
    simp [hexDecode, ha, hb, hbs]

/-- `ObjectIDFromHex` accepts exactly the strings of 24 hexadecimal characters. -/
theorem ObjectIDFromHex_eq_none_iff (s : String) :
    ObjectIDFromHex s = none ↔ ¬ (s.length = 24 ∧ ∀ c ∈ s.data, isHexChar c = true) := by
  constructor
  · intro h ⟨hl, hh⟩
    have hsz : s.utf8ByteSize = 24 := by
      rw [utf8ByteSize_eq, utf8Len_of_hex _ hh]; exact hl
    obtain ⟨bs, hbs, hlen⟩ := hexDecode_of_hex 12 s.data (by simpa using hl) hh
    simp [ObjectIDFromHex, hsz, hbs, hlen] at h
  · intro h
    unfold ObjectIDFromHex
    split_ifs with hsz
    · rfl
    · have hsz1 : s.utf8ByteSize = 24 := by simpa using hsz
      split
      · rfl
      · rename_i bs hbs
        obtain ⟨h1, h2⟩ := hexDecode_some _ _ hbs
        exfalso
        apply h
        refine ⟨?_, h1⟩
        have := utf8Len_of_hex _ h1
        rw [utf8ByteSize_eq, this] at hsz1
        exact hsz1

/-! ## Create -/

/-- The todo that `createTodo` hands to `InsertOne` for a request with the given fields. -/
theorem BodyParser_fields (id : Option ObjectID) (completed : Option Bool) (body : Option String) :
    BodyParser (.fields id completed body) Todo.zero =
      .ok ⟨id.getD NilObjectID, completed.getD false, body.getD ""⟩ := rfl

theorem InsertOne_ok {fault : Option String} {newID insertedID : ObjectID} {doc : Todo}
    {st : Store} (h : (st.InsertOne fault newID doc).1 = .ok insertedID) :
    fault = none ∧ insertedID = (if doc.ID.IsZero then newID else doc.ID) ∧
      st.docs.any (matchesID insertedID) = false ∧
      st.InsertOne fault newID doc =
        (.ok insertedID, ⟨st.docs ++ [{ doc with ID := insertedID }],
          st.log ++ [StoreOp.insertOne doc]⟩) := by
  cases fault with
  | some e => simp [Store.InsertOne] at h
  | none =>
    simp only [Store.InsertOne] at h ⊢
    generalize (if doc.ID.IsZero = true then newID else doc.ID) = i at h ⊢
    by_cases hany : st.docs.any (matchesID i) = true
    · simp [hany] at h
    · rw [if_neg hany] at h ⊢
      simp only [Except.ok.injEq] at h
      subst h
      simp only [Bool.not_eq_true] at hany
      exact ⟨trivial, rfl, hany, rfl⟩

/-- C1 (as stated, refuted): a create request that supplies `completed: true` is
inserted and returned with `completed = true`, not `false`. -/
theorem createTodo_keeps_completed_true :
    createTodo none (sampleID 7) (.fields none (some true) (some "buy milk")) Store.empty =
      (⟨201, .todo ⟨sampleID 7, true, "buy milk"⟩⟩,
       ⟨[⟨sampleID 7, true, "buy milk"⟩], [.insertOne ⟨NilObjectID, true, "buy milk"⟩]⟩) := by
  decide

/-- C1 (amended): for every create request that parses with a non-empty `body`,
when the store insert succeeds `createTodo` appends one document to the
collection and responds 201 with that document; its `body` is the request's
`body` and its `completed` is the request's `completed` (false when absent). -/
theorem createTodo_inserts_request_fields (fault : Option String) (newID insertedID : ObjectID)
    (id : Option ObjectID) (completed : Option Bool) (body : String) (st : Store)
    (hbody : body ≠ "")
    (hins : (st.InsertOne fault newID ⟨id.getD NilObjectID, completed.getD false, body⟩).1 =
      .ok insertedID) :
    (createTodo fault newID (.fields id completed (some body)) st).1 =
        ⟨201, .todo ⟨insertedID, completed.getD false, body⟩⟩ ∧
      (createTodo fault newID (.fields id completed (some body)) st).2.docs =
        st.docs ++ [⟨insertedID, completed.getD false, body⟩] := by
  obtain ⟨_, _, _, h⟩ := InsertOne_ok hins
  simp [createTodo, BodyParser_fields, hbody, h]

theorem createTodo_inserts_request_fields_witness :
    (createTodo none (sampleID 7) (.fields none (some true) (some "buy milk")) Store.empty).1 =
        ⟨201, .todo ⟨sampleID 7, true, "buy milk"⟩⟩ ∧
      (createTodo none (sampleID 7) (.fields none (some true) (some "buy milk")) Store.empty).2.docs =
        Store.empty.docs ++ [⟨sampleID 7, true, "buy milk"⟩] :=
  createTodo_inserts_request_fields none (sampleID 7) (sampleID 7) none (some true) "buy milk"
    Store.empty (by decide) rfl

/-- C2 (as stated, refuted): a create request carrying a non-zero `_id` is persisted
and answered under that `_id`, not under the id the store would have generated. -/
theorem createTodo_takes_request_id :
    createTodo none (sampleID 7) (.fields (some (sampleID 3)) none (some "buy milk"))
        Store.empty =
      (⟨201, .todo ⟨sampleID 3, false, "buy milk"⟩⟩,
       ⟨[⟨sampleID 3, false, "buy milk"⟩], [.insertOne ⟨sampleID 3, false, "buy milk"⟩]⟩) ∧
    sampleID 3 ≠ sampleID 7 := by
  decide

/-- C2 (amended): for every create request that passes validation, when the insert
succeeds the persisted document and the 201 response carry the same id, which no
document of the collection had before; it is the request's `_id` when the
request carries a non-zero one and the id generated by the store otherwise, and
it is non-zero whenever the generated id is. -/
theorem createTodo_assigns_id (fault : Option String) (newID insertedID : ObjectID)
    (id : Option ObjectID) (completed : Option Bool) (body : String) (st : Store)
    (hbody : body ≠ "")
    (hins : (st.InsertOne fault newID ⟨id.getD NilObjectID, completed.getD false, body⟩).1 =
      .ok insertedID) :
    (∃ t, (createTodo fault newID (.fields id completed (some body)) st).1 = ⟨201, .todo t⟩ ∧
        (createTodo fault newID (.fields id completed (some body)) st).2.docs = st.docs ++ [t] ∧
        t.ID = insertedID) ∧
      insertedID ∉ st.ids ∧
      insertedID = (if id.getD NilObjectID = NilObjectID then newID else id.getD NilObjectID) ∧
      (newID ≠ NilObjectID → insertedID ≠ NilObjectID) := by
  obtain ⟨_, hid, hfresh, h⟩ := InsertOne_ok hins
  have hid2 : insertedID =
      (if id.getD NilObjectID = NilObjectID then newID else id.getD NilObjectID) := by
    simpa [ObjectID.IsZero] using hid
  refine ⟨⟨⟨insertedID, completed.getD false, body⟩, ?_, ?_, rfl⟩, ?_, hid2, ?_⟩
  · simp [createTodo, BodyParser_fields, hbody, h]
  · simp [createTodo, BodyParser_fields, hbody, h]
  · intro hmem
    simp only [Store.ids, List.mem_map] at hmem
    obtain ⟨t, ht, hte⟩ := hmem
    have : st.docs.any (matchesID insertedID) = true :=
      List.any_eq_true.mpr ⟨t, ht, by simp [matchesID, hte]⟩
    rw [hfresh] at this
    exact Bool.false_ne_true this
  · intro hne
    rw [hid2]
    split_ifs with hz
    · exact hne
    · exact hz

theorem createTodo_assigns_id_witness :
    (∃ t, (createTodo none (sampleID 7) (.fields none none (some "buy milk")) Store.empty).1 =
          ⟨201, .todo t⟩ ∧
        (createTodo none (sampleID 7) (.fields none none (some "buy milk")) Store.empty).2.docs =
          Store.empty.docs ++ [t] ∧
        t.ID = sampleID 7) ∧
      sampleID 7 ∉ Store.empty.ids ∧
      sampleID 7 = (if (none : Option ObjectID).getD NilObjectID = NilObjectID then sampleID 7
        else (none : Option ObjectID).getD NilObjectID) ∧
      (sampleID 7 ≠ NilObjectID → sampleID 7 ≠ NilObjectID) :=
  createTodo_assigns_id none (sampleID 7) (sampleID 7) none none "buy milk" Store.empty
    (by decide) rfl

/-- C3 (as stated, refuted): the message sent for an empty `body` is
"Todo body is required" and the one for an unparseable request is
"Invalid request body"; neither is the lower-case text of the claim. -/
theorem createTodo_validation_messages_differ :
    (createTodo none (sampleID 7) (.fields none none (some "")) Store.empty).1 =
        ⟨400, .errorMap "Todo body is required"⟩ ∧
      (createTodo none (sampleID 7) (.fields none none (some "")) Store.empty).1.body ≠
        .errorMap "todo body is required" ∧
      (createTodo none (sampleID 7) .unparseable Store.empty).1 =
        ⟨400, .errorMap "Invalid request body"⟩ ∧
      (createTodo none (sampleID 7) .unparseable Store.empty).1.body ≠
        .errorMap "invalid request body" := by
  decide

/-- C3 (amended): for every create request whose parsed `body` is the empty string
or is absent, `createTodo` responds 400 with the error "Todo body is required";
for every request that cannot be parsed it responds 400 with the error
"Invalid request body".  In both cases the collection and the log of store
operations are unchanged, whatever the store would have done. -/
theorem createTodo_rejects_without_insert (fault : Option String) (newID : ObjectID)
    (id : Option ObjectID) (completed : Option Bool) (st : Store) :
    createTodo fault newID (.fields id completed (some "")) st =
        (⟨400, .errorMap "Todo body is required"⟩, st) ∧
      createTodo fault newID (.fields id completed none) st =
        (⟨400, .errorMap "Todo body is required"⟩, st) ∧
      createTodo fault newID .unparseable st =
        (⟨400, .errorMap "Invalid request body"⟩, st) := by
  refine ⟨?_, ?_, ?_⟩ <;> simp [createTodo, BodyParser, Todo.zero]

/-! ## Identifier validation -/

/-- C4 (as stated, refuted): the message sent for an identifier that does not parse
is "Invalid ID format", not the lower-case text of the claim. -/
theorem invalid_id_message_differs :
    (updateTodo none "not-an-id" Store.empty).1 = ⟨400, .errorMap "Invalid ID format"⟩ ∧
      (updateTodo none "not-an-id" Store.empty).1.body ≠ .errorMap "invalid ID format" ∧
      (deleteTodo none "not-an-id" Store.empty).1 = ⟨400, .errorMap "Invalid ID format"⟩ ∧
      (deleteTodo none "not-an-id" Store.empty).1.body ≠ .errorMap "invalid ID format" := by
  decide

/-- C4 (amended): for every path identifier that is not exactly 24 hexadecimal
characters, `updateTodo` and `deleteTodo` respond 400 with the error
"Invalid ID format"; the collection and the log of store operations are
unchanged, whatever the store would have done. -/
theorem invalid_id_rejected_without_store_call (fault : Option String) (idParam : String)
    (st : Store)
    (hbad : ¬ (idParam.length = 24 ∧ ∀ c ∈ idParam.data, isHexChar c = true)) :
    ObjectIDFromHex idParam = none ∧
      updateTodo fault idParam st = (⟨400, .errorMap "Invalid ID format"⟩, st) ∧
      deleteTodo fault idParam st = (⟨400, .errorMap "Invalid ID format"⟩, st) := by
  have h := (ObjectIDFromHex_eq_none_iff idParam).mpr hbad
  simp [updateTodo, deleteTodo, h]

theorem invalid_id_rejected_without_store_call_witness :
    ObjectIDFromHex "00000000000000000000000g" = none ∧
      updateTodo (some "down") "00000000000000000000000g" ⟨[⟨sampleID 7, false, "a"⟩], []⟩ =
        (⟨400, .errorMap "Invalid ID format"⟩, ⟨[⟨sampleID 7, false, "a"⟩], []⟩) ∧
      deleteTodo (some "down") "00000000000000000000000g" ⟨[⟨sampleID 7, false, "a"⟩], []⟩ =
        (⟨400, .errorMap "Invalid ID format"⟩, ⟨[⟨sampleID 7, false, "a"⟩], []⟩) :=
  invalid_id_rejected_without_store_call (some "down") "00000000000000000000000g"
    ⟨[⟨sampleID 7, false, "a"⟩], []⟩ (by decide)

/-! ## Store primitives on the list of documents -/

theorem any_matchesID_iff (id : ObjectID) (l : List Todo) :
    l.any (matchesID id) = true ↔ id ∈ l.map Todo.ID := by
  simp only [List.any_eq_true, List.mem_map, matchesID, decide_eq_true_eq]

theorem any_matchesID_false_iff (id : ObjectID) (l : List Todo) :
    l.any (matchesID id) = false ↔ id ∉ l.map Todo.ID := by
  rw [← any_matchesID_iff, Bool.not_eq_true]

theorem setCompletedFirst_map_ID (id : ObjectID) (v : Bool) :
    ∀ l : List Todo, (setCompletedFirst id v l).map Todo.ID = l.map Todo.ID
  | [] => rfl
  | t :: ts => by
    unfold setCompletedFirst
    split_ifs
    · rfl
    · simp [setCompletedFirst_map_ID id v ts]

theorem setCompletedFirst_map_Body (id : ObjectID) (v : Bool) :
    ∀ l : List Todo, (setCompletedFirst id v l).map Todo.Body = l.map Todo.Body
  | [] => rfl
  | t :: ts => by
    unfold setCompletedFirst
    split_ifs
    · rfl
    · simp [setCompletedFirst_map_Body id v ts]

theorem setCompletedFirst_length (id : ObjectID) (v : Bool) (l : List Todo) :
    (setCompletedFirst id v l).length = l.length := by
  have := congrArg List.length (setCompletedFirst_map_ID id v l)
  simpa using this

theorem setCompletedFirst_idem (id : ObjectID) (v : Bool) :
    ∀ l : List Todo, setCompletedFirst id v (setCompletedFirst id v l) = setCompletedFirst id v l
  | [] => rfl
  | t :: ts => by
    by_cases h : matchesID id t = true
    · have h2 : matchesID id { t with Completed := v } = true := h
      simp [setCompletedFirst, h, h2]
    · simp [setCompletedFirst, h, setCompletedFirst_idem id v ts]

theorem setCompletedFirst_find (id : ObjectID) (v : Bool) :
    ∀ l : List Todo, (setCompletedFirst id v l).find? (matchesID id) =
      (l.find? (matchesID id)).map (fun t => { t with Completed := v })
  | [] => rfl
  | t :: ts => by
    by_cases h : matchesID id t = true
    · have h2 : matchesID id { t with Completed := v } = true := h
      simp [setCompletedFirst, h, List.find?, h2]
    · simp [setCompletedFirst, h, List.find?, setCompletedFirst_find id v ts]

theorem setCompletedFirst_completed (id : ObjectID) (v : Bool) :
    ∀ l : List Todo, (l.map Todo.ID).Nodup →
      ∀ t ∈ setCompletedFirst id v l, t.ID = id → t.Completed = v
  | [], _, t, ht, _ => by simp [setCompletedFirst] at ht
  | a :: as, hnd, t, ht, hid => by
    rw [List.map_cons, List.nodup_cons] at hnd
    by_cases h : matchesID id a = true
    · have ha : a.ID = id := by simpa [matchesID] using h
      rw [setCompletedFirst, if_pos h, List.mem_cons] at ht
      rcases ht with rfl | ht
      · rfl
      · exact absurd (List.mem_map.mpr ⟨t, ht, hid.trans ha.symm⟩) hnd.1
    · have ha : a.ID ≠ id := by simpa [matchesID] using h
      rw [setCompletedFirst, if_neg h, List.mem_cons] at ht
      rcases ht with rfl | ht
      · exact absurd hid ha
      · exact setCompletedFirst_completed id v as hnd.2 t ht hid

theorem eraseP_matchesID_length (id : ObjectID) (l : List Todo) (h : id ∈ l.map Todo.ID) :
    (l.eraseP (matchesID id)).length + 1 = l.length := by
  obtain ⟨t, ht, hte⟩ := List.mem_map.mp h
  have hpos : 0 < l.length := List.length_pos_of_mem ht
  have := List.length_eraseP_of_mem ht (show matchesID id t = true by simp [matchesID, hte])
  omega

theorem eraseP_matchesID_not_mem (id : ObjectID) :
    ∀ l : List Todo, (l.map Todo.ID).Nodup → id ∉ (l.eraseP (matchesID id)).map Todo.ID
  | [], _ => by simp
  | a :: as, hnd => by
    rw [List.map_cons, List.nodup_cons] at hnd
    by_cases h : matchesID id a = true
    · have ha : a.ID = id := by simpa [matchesID] using h
      rw [List.eraseP_cons_of_pos h, ← ha]
      exact hnd.1
    · have ha : a.ID ≠ id := by simpa [matchesID] using h
      rw [List.eraseP_cons_of_neg h, List.map_cons, List.mem_cons, not_or]
      exact ⟨fun e => ha e.symm, eraseP_matchesID_not_mem id as hnd.2⟩

theorem eraseP_map_ID_sublist (id : ObjectID) (l : List Todo) :
    ((l.eraseP (matchesID id)).map Todo.ID).Sublist (l.map Todo.ID) :=
  (List.eraseP_sublist l).map Todo.ID

/-! ## The handlers step by step -/

theorem updateTodo_found {idParam : String} {id : ObjectID} (st : Store)
    (hid : ObjectIDFromHex idParam = some id) (hmem : id ∈ st.ids) :
    updateTodo none idParam st =
      (⟨200, .successMap true⟩,
       ⟨setCompletedFirst id true st.docs, st.log ++ [StoreOp.updateOne id]⟩) := by
  have h := (any_matchesID_iff id st.docs).mpr hmem
  simp [updateTodo, hid, Store.UpdateOne, h, statusOK]

theorem updateTodo_missing {idParam : String} {id : ObjectID} (st : Store)
    (hid : ObjectIDFromHex idParam = some id) (hmem : id ∉ st.ids) :
    updateTodo none idParam st =
      (⟨404, .errorMap "Todo not found"⟩, ⟨st.docs, st.log ++ [StoreOp.updateOne id]⟩) := by
  have h := (any_matchesID_false_iff id st.docs).mpr hmem
  simp [updateTodo, hid, Store.UpdateOne, h]

theorem deleteTodo_found {idParam : String} {id : ObjectID} (st : Store)
    (hid : ObjectIDFromHex idParam = some id) (hmem : id ∈ st.ids) :
    deleteTodo none idParam st =
      (⟨200, .successMap true⟩,
       ⟨st.docs.eraseP (matchesID id), st.log ++ [StoreOp.deleteOne id]⟩) := by
  have h := (any_matchesID_iff id st.docs).mpr hmem
  simp [deleteTodo, hid, Store.DeleteOne, h, statusOK]

theorem deleteTodo_missing {idParam : String} {id : ObjectID} (st : Store)
    (hid : ObjectIDFromHex idParam = some id) (hmem : id ∉ st.ids) :
    deleteTodo none idParam st =
      (⟨404, .errorMap "Todo not found"⟩, ⟨st.docs, st.log ++ [StoreOp.deleteOne id]⟩) := by
  have h := (any_matchesID_false_iff id st.docs).mpr hmem
  simp [deleteTodo, hid, Store.DeleteOne, h]

/-! ## Not found, found, idempotence -/

/-- C5 (as stated, refuted): the message sent for a well-formed id that matches no
document is "Todo not found", not the lower-case text of the claim. -/
theorem not_found_message_differs :
    (updateTodo none "000000000000000000000007" Store.empty).1 =
        ⟨404, .errorMap "Todo not found"⟩ ∧
      (updateTodo none "000000000000000000000007" Store.empty).1.body ≠
        .errorMap "todo not found" ∧
      (deleteTodo none "000000000000000000000007" Store.empty).1 =
        ⟨404, .errorMap "Todo not found"⟩ ∧
      (deleteTodo none "000000000000000000000007" Store.empty).1.body ≠
        .errorMap "todo not found" := by
  decide

/-- C5 (amended): for every well-formed id, when the store call succeeds: if the id
matches no document, `updateTodo` and `deleteTodo` respond 404 with the error
"Todo not found" and leave the documents unchanged; if it matches a document,
they respond 200 with `{success: true}`; and after a delete that responded 200,
a second delete of the same id responds 404 with "Todo not found" (ids being
unique in the collection). -/
theorem unknown_id_is_404_known_id_is_200 (idParam : String) (id : ObjectID) (st : Store)
    (hid : ObjectIDFromHex idParam = some id) :
    (id ∉ st.ids →
        updateTodo none idParam st =
          (⟨404, .errorMap "Todo not found"⟩, ⟨st.docs, st.log ++ [StoreOp.updateOne id]⟩) ∧
        deleteTodo none idParam st =
          (⟨404, .errorMap "Todo not found"⟩, ⟨st.docs, st.log ++ [StoreOp.deleteOne id]⟩)) ∧
      (id ∈ st.ids →
        (updateTodo none idParam st).1 = ⟨200, .successMap true⟩ ∧
        (deleteTodo none idParam st).1 = ⟨200, .successMap true⟩) ∧
      ((deleteTodo none idParam st).1 = ⟨200, .successMap true⟩ → st.ids.Nodup →
        (deleteTodo none idParam (deleteTodo none idParam st).2).1 =
          ⟨404, .errorMap "Todo not found"⟩) := by
  refine ⟨fun h => ⟨updateTodo_missing st hid h, deleteTodo_missing st hid h⟩,
    fun h => ⟨by rw [updateTodo_found st hid h], by rw [deleteTodo_found st hid h]⟩, ?_⟩
  intro hok hnd
  by_cases hmem : id ∈ st.ids
  · rw [deleteTodo_found st hid hmem]
    have hgone : id ∉ (Store.mk (st.docs.eraseP (matchesID id))
        (st.log ++ [StoreOp.deleteOne id])).ids :=
      eraseP_matchesID_not_mem id st.docs hnd
    rw [deleteTodo_missing _ hid hgone]
  · rw [deleteTodo_missing st hid hmem] at hok
    have hst := congrArg Response.status hok
    simp at hst

theorem unknown_id_is_404_known_id_is_200_witness :
    ObjectIDFromHex "000000000000000000000007" = some (sampleID 7) ∧
      (deleteTodo none "000000000000000000000007"
          (deleteTodo none "000000000000000000000007"
            ⟨[⟨sampleID 7, false, "buy milk"⟩], []⟩).2).1 =
        ⟨404, .errorMap "Todo not found"⟩ :=
  ⟨by decide,
   (unknown_id_is_404_known_id_is_200 "000000000000000000000007" (sampleID 7)
      ⟨[⟨sampleID 7, false, "buy milk"⟩], []⟩ (by decide)).2.2 (by decide) (by decide)⟩

/-- C6: mark-complete is idempotent.  For every collection and every well-formed id
of an existing document, with the store succeeding, two successive calls of
`updateTodo` both respond 200 with `{success: true}`; the document found under
that id has `completed = true` after the first call and after the second (and,
ids being unique, so has every document with that id); the documents after the
second call are those after the first. -/
theorem updateTodo_idempotent (idParam : String) (id : ObjectID) (st : Store)
    (hid : ObjectIDFromHex idParam = some id) (hmem : id ∈ st.ids) :
    (updateTodo none idParam st).1 = ⟨200, .successMap true⟩ ∧
      (updateTodo none idParam (updateTodo none idParam st).2).1 = ⟨200, .successMap true⟩ ∧
      ((updateTodo none idParam st).2.docs.find? (matchesID id)).map Todo.Completed =
        some true ∧
      ((updateTodo none idParam (updateTodo none idParam st).2).2.docs.find?
          (matchesID id)).map Todo.Completed = some true ∧
      (updateTodo none idParam (updateTodo none idParam st).2).2.docs =
        (updateTodo none idParam st).2.docs ∧
      (st.ids.Nodup → ∀ t ∈ (updateTodo none idParam st).2.docs, t.ID = id →
        t.Completed = true) := by
  have h1 := updateTodo_found st hid hmem
  have hmem2 : id ∈ (Store.mk (setCompletedFirst id true st.docs)
      (st.log ++ [StoreOp.updateOne id])).ids := by
    simpa [Store.ids, setCompletedFirst_map_ID] using hmem
  have h2 := updateTodo_found _ hid hmem2
  have hsome : ∃ t, st.docs.find? (matchesID id) = some t := by
    have := (any_matchesID_iff id st.docs).mpr hmem
    rw [List.any_eq_true] at this
    obtain ⟨t, ht, hp⟩ := this
    exact Option.isSome_iff_exists.mp (List.find?_isSome.mpr ⟨t, ht, hp⟩)
  obtain ⟨t, ht⟩ := hsome
  rw [h1, h2]
  refine ⟨rfl, rfl, ?_, ?_, ?_, ?_⟩
  · simp [setCompletedFirst_find, ht]
  · simp [setCompletedFirst_idem, setCompletedFirst_find, ht]
  · simp [setCompletedFirst_idem]
  · intro hnd
    exact setCompletedFirst_completed id true st.docs hnd

theorem updateTodo_idempotent_witness :
    (updateTodo none "000000000000000000000007" ⟨[⟨sampleID 7, false, "buy milk"⟩], []⟩).1 =
        ⟨200, .successMap true⟩ ∧
      (updateTodo none "000000000000000000000007"
        (updateTodo none "000000000000000000000007"
          ⟨[⟨sampleID 7, false, "buy milk"⟩], []⟩).2).1 = ⟨200, .successMap true⟩ ∧
      ((updateTodo none "000000000000000000000007"
        ⟨[⟨sampleID 7, false, "buy milk"⟩], []⟩).2.docs.find?
          (matchesID (sampleID 7))).map Todo.Completed = some true ∧
      ((updateTodo none "000000000000000000000007"
        (updateTodo none "000000000000000000000007"
          ⟨[⟨sampleID 7, false, "buy milk"⟩], []⟩).2).2.docs.find?
          (matchesID (sampleID 7))).map Todo.Completed = some true ∧
      (updateTodo none "000000000000000000000007"
        (updateTodo none "000000000000000000000007"
          ⟨[⟨sampleID 7, false, "buy milk"⟩], []⟩).2).2.docs =
        (updateTodo none "000000000000000000000007"
          ⟨[⟨sampleID 7, false, "buy milk"⟩], []⟩).2.docs ∧
      ((Store.mk [⟨sampleID 7, false, "buy milk"⟩] []).ids.Nodup →
        ∀ t ∈ (updateTodo none "000000000000000000000007"
          ⟨[⟨sampleID 7, false, "buy milk"⟩], []⟩).2.docs, t.ID = sampleID 7 →
        t.Completed = true) :=
  updateTodo_idempotent "000000000000000000000007" (sampleID 7)
    ⟨[⟨sampleID 7, false, "buy milk"⟩], []⟩ (by decide) (by decide)

/-! ## Listing -/

/-- When both store calls succeed, `getTodos` responds 200 with a slice holding the
documents of the collection in the store's order; the slice is nil exactly when
the collection is empty. -/
theorem getTodos_ok (st : Store) :
    ∃ ts : GoSlice Todo,
      getTodos none none st = (⟨200, .todos ts⟩, ⟨st.docs, st.log ++ [StoreOp.find]⟩) ∧
      ts.elems = st.docs ∧ (ts = none ↔ st.docs = []) := by
  cases hd : st.docs with
  | nil => exact ⟨none, by simp [getTodos, Store.Find, Cursor.All, hd, statusOK], rfl, by simp⟩
  | cons t ts =>
    exact ⟨some (t :: ts), by simp [getTodos, Store.Find, Cursor.All, hd, statusOK], rfl,
      by simp⟩

/-- For a non-empty collection the JSON body of `getTodos` is the array of its
documents, each once, in the store's order. -/
theorem getTodos_nonempty_marshal (st : Store) (h : st.docs ≠ []) :
    (getTodos none none st).1.status = 200 ∧
      (getTodos none none st).1.body.marshal = .array (st.docs.map Todo.members) := by
  obtain ⟨ts, hget, helems, hnil⟩ := getTodos_ok st
  rw [hget]
  cases ts with
  | none => exact absurd (hnil.mp rfl) h
  | some xs =>
    have : xs = st.docs := helems
    subst this
    exact ⟨rfl, rfl⟩

/-- C8 (the code at the failing input): on the empty collection, with find and
cursor read succeeding, `getTodos` responds 200 with the nil slice, whose JSON
encoding is `null` and not the empty array. -/
theorem getTodos_empty_collection_is_null :
    getTodos none none Store.empty = (⟨200, .todos none⟩, ⟨[], [.find]⟩) ∧
      (getTodos none none Store.empty).1.body.marshal = JSON.null ∧
      (getTodos none none Store.empty).1.body.marshal ≠ JSON.array [] := by
  decide

/-! ## Store errors -/

/-- C9: in each of the four handlers, when the request passes validation and the
store operation the handler issues returns an error `e`, the response is 500
with the error message `e`; and a response with status 500 arises in no other
way. -/
theorem store_error_iff_500 (findFault allFault fault : Option String) (newID : ObjectID)
    (req : RequestBody) (idParam : String) (st : Store) :
    ((∀ e, (st.Find findFault).1 = .error e →
          (getTodos findFault allFault st).1 = ⟨500, .errorMap e⟩) ∧
        (∀ cursor e, (st.Find findFault).1 = .ok cursor →
          cursor.All allFault none = .error e →
          (getTodos findFault allFault st).1 = ⟨500, .errorMap e⟩) ∧
        ((getTodos findFault allFault st).1.status = 500 →
          ∃ e, (getTodos findFault allFault st).1.body = .errorMap e ∧
            ((st.Find findFault).1 = .error e ∨
              ∃ cursor, (st.Find findFault).1 = .ok cursor ∧
                cursor.All allFault none = .error e))) ∧
      ((∀ todo e, BodyParser req Todo.zero = .ok todo → todo.Body ≠ "" →
          (st.InsertOne fault newID todo).1 = .error e →
          (createTodo fault newID req st).1 = ⟨500, .errorMap e⟩) ∧
        ((createTodo fault newID req st).1.status = 500 →
          ∃ todo e, BodyParser req Todo.zero = .ok todo ∧ todo.Body ≠ "" ∧
            (st.InsertOne fault newID todo).1 = .error e ∧
            (createTodo fault newID req st).1.body = .errorMap e)) ∧
      ((∀ id e, ObjectIDFromHex idParam = some id →
          (st.UpdateOne fault id true).1 = .error e →
          (updateTodo fault idParam st).1 = ⟨500, .errorMap e⟩) ∧
        ((updateTodo fault idParam st).1.status = 500 →
          ∃ id e, ObjectIDFromHex idParam = some id ∧
            (st.UpdateOne fault id true).1 = .error e ∧
            (updateTodo fault idParam st).1.body = .errorMap e)) ∧
      ((∀ id e, ObjectIDFromHex idParam = some id →
          (st.DeleteOne fault id).1 = .error e →
          (deleteTodo fault idParam st).1 = ⟨500, .errorMap e⟩) ∧
        ((deleteTodo fault idParam st).1.status = 500 →
          ∃ id e, ObjectIDFromHex idParam = some id ∧
            (st.DeleteOne fault id).1 = .error e ∧
            (deleteTodo fault idParam st).1.body = .errorMap e)) := by
  refine ⟨⟨?_, ?_, ?_⟩, ⟨?_, ?_⟩, ⟨?_, ?_⟩, ⟨?_, ?_⟩⟩
  · intro e h
    cases findFault with
    | none => simp [Store.Find] at h
    | some f =>
      simp only [Store.Find, Except.error.injEq] at h
      subst h
      simp [getTodos, Store.Find]
  · intro cursor e h1 h2
    cases findFault with
    | some f => simp [Store.Find] at h1
    | none =>
      simp only [Store.Find, Except.ok.injEq] at h1
      subst h1
      cases allFault with
      | none => cases hd : st.docs <;> simp [Cursor.All, hd] at h2
      | some a =>
        simp only [Cursor.All, Except.error.injEq] at h2
        subst h2
        simp [getTodos, Store.Find, Cursor.All]
  · intro h
    cases findFault with
    | some f => exact ⟨f, by simp [getTodos, Store.Find], Or.inl (by simp [Store.Find])⟩
    | none =>
      cases allFault with
      | some a =>
        exact ⟨a, by simp [getTodos, Store.Find, Cursor.All],
          Or.inr ⟨⟨st.docs⟩, by simp [Store.Find], by simp [Cursor.All]⟩⟩
      | none =>
        cases hd : st.docs <;> simp [getTodos, Store.Find, Cursor.All, hd, statusOK] at h
  · intro todo e hp hb hins
    cases hr : st.InsertOne fault newID todo with
    | mk r st1 =>
      rw [hr] at hins
      simp only at hins
      subst hins
      simp [createTodo, hp, hb, hr]
  · intro h
    cases hp : BodyParser req Todo.zero with
    | error x => simp [createTodo, hp] at h
    | ok todo =>
      by_cases hb : todo.Body = ""
      · simp [createTodo, hp, hb] at h
      · cases hr : st.InsertOne fault newID todo with
        | mk r st1 =>
          cases r with
          | ok i => simp [createTodo, hp, hb, hr] at h
          | error e => exact ⟨todo, e, rfl, hb, by rw [hr], by simp [createTodo, hp, hb, hr]⟩
  · intro id e hid hu
    cases hr : st.UpdateOne fault id true with
    | mk r st1 =>
      rw [hr] at hu
      simp only at hu
      subst hu
      simp [updateTodo, hid, hr]
  · intro h
    cases hid : ObjectIDFromHex idParam with
    | none => simp [updateTodo, hid] at h
    | some id =>
      cases hr : st.UpdateOne fault id true with
      | mk r st1 =>
        cases r with
        | ok n =>
          by_cases hn : n = 0 <;> simp [updateTodo, hid, hr, hn, statusOK] at h
        | error e => exact ⟨id, e, rfl, by rw [hr], by simp [updateTodo, hid, hr]⟩
  · intro id e hid hu
    cases hr : st.DeleteOne fault id with
    | mk r st1 =>
      rw [hr] at hu
      simp only at hu
      subst hu
      simp [deleteTodo, hid, hr]
  · intro h
    cases hid : ObjectIDFromHex idParam with
    | none => simp [deleteTodo, hid] at h
    | some id =>
      cases hr : st.DeleteOne fault id with
      | mk r st1 =>
        cases r with
        | ok n =>
          by_cases hn : n = 0 <;> simp [deleteTodo, hid, hr, hn, statusOK] at h
        | error e => exact ⟨id, e, rfl, by rw [hr], by simp [deleteTodo, hid, hr]⟩


theorem store_error_iff_500_witness :
    (createTodo (some "connection refused") (sampleID 7) (.fields none none (some "buy milk"))
        Store.empty).1 = ⟨500, .errorMap "connection refused"⟩ ∧
      (deleteTodo (some "connection refused") "000000000000000000000007" Store.empty).1 =
        ⟨500, .errorMap "connection refused"⟩ :=
  ⟨(store_error_iff_500 none none (some "connection refused") (sampleID 7)
      (.fields none none (some "buy milk")) "000000000000000000000007" Store.empty).2.1.1
      ⟨NilObjectID, false, "buy milk"⟩ "connection refused" rfl (by decide) rfl,
   (store_error_iff_500 none none (some "connection refused") (sampleID 7)
      (.fields none none (some "buy milk")) "000000000000000000000007" Store.empty).2.2.2.1
      (sampleID 7) "connection refused" (by decide) rfl⟩

/-! ## Effect of each handler on the documents -/

theorem getTodos_docs (findFault allFault : Option String) (st : Store) :
    (getTodos findFault allFault st).2.docs = st.docs := by
  cases findFault with
  | some f => simp [getTodos, Store.Find]
  | none =>
    cases allFault with
    | some a => simp [getTodos, Store.Find, Cursor.All]
    | none => cases hd : st.docs <;> simp [getTodos, Store.Find, Cursor.All, hd]

theorem InsertOne_error {fault : Option String} {newID : ObjectID} {doc : Todo} {st : Store}
    {e : String} (h : (st.InsertOne fault newID doc).1 = .error e) :
    (st.InsertOne fault newID doc).2.docs = st.docs := by
  cases fault with
  | some f => rfl
  | none =>
    simp only [Store.InsertOne] at h ⊢
    generalize (if doc.ID.IsZero = true then newID else doc.ID) = i at h ⊢
    by_cases hany : st.docs.any (matchesID i) = true
    · rw [if_pos hany]
    · rw [if_neg hany] at h
      simp at h

theorem createTodo_effect (fault : Option String) (newID : ObjectID) (req : RequestBody)
    (st : Store) :
    ((createTodo fault newID req st).1.status ≠ 201 ∧
        (createTodo fault newID req st).2.docs = st.docs) ∨
      ∃ t, (createTodo fault newID req st).1 = ⟨201, .todo t⟩ ∧
        (createTodo fault newID req st).2.docs = st.docs ++ [t] ∧
        t.Body ≠ "" ∧ t.ID ∉ st.ids := by
  cases hp : BodyParser req Todo.zero with
  | error x => left; simp [createTodo, hp]
  | ok todo =>
    by_cases hb : todo.Body = ""
    · left; simp [createTodo, hp, hb]
    · cases hr : st.InsertOne fault newID todo with
      | mk r st1 =>
        cases r with
        | error e =>
          left
          have hdocs : st1.docs = st.docs := by
            have h2 := InsertOne_error (show (st.InsertOne fault newID todo).1 = .error e by
              rw [hr])
            rw [hr] at h2
            exact h2
          simp [createTodo, hp, hb, hr, hdocs]
        | ok i =>
          right
          have hok : (st.InsertOne fault newID todo).1 = .ok i := by rw [hr]
          obtain ⟨_, _, hfresh, hall⟩ := InsertOne_ok hok
          rw [hall] at hr
          have hst1 : st1 = ⟨st.docs ++ [{ todo with ID := i }],
              st.log ++ [StoreOp.insertOne todo]⟩ := (congrArg Prod.snd hr).symm
          refine ⟨{ todo with ID := i }, ?_, ?_, hb, ?_⟩
          · simp [createTodo, hp, hb, hall]
          · simp [createTodo, hp, hb, hall]
          · exact (any_matchesID_false_iff i st.docs).mp hfresh

theorem updateTodo_effect (fault : Option String) (idParam : String) (st : Store) :
    (updateTodo fault idParam st).2.docs = st.docs ∨
      ∃ id, (updateTodo fault idParam st).2.docs = setCompletedFirst id true st.docs := by
  cases hid : ObjectIDFromHex idParam with
  | none => left; simp [updateTodo, hid]
  | some id =>
    cases fault with
    | some f => left; simp [updateTodo, hid, Store.UpdateOne]
    | none =>
      by_cases hmem : id ∈ st.ids
      · right; exact ⟨id, by rw [updateTodo_found st hid hmem]⟩
      · left; rw [updateTodo_missing st hid hmem]

theorem deleteTodo_effect (fault : Option String) (idParam : String) (st : Store) :
    ((deleteTodo fault idParam st).1.status ≠ 200 ∧
        (deleteTodo fault idParam st).2.docs = st.docs) ∨
      ∃ id, ObjectIDFromHex idParam = some id ∧ id ∈ st.ids ∧
        (deleteTodo fault idParam st).1 = ⟨200, .successMap true⟩ ∧
        (deleteTodo fault idParam st).2.docs = st.docs.eraseP (matchesID id) := by
  cases hid : ObjectIDFromHex idParam with
  | none => left; simp [deleteTodo, hid]
  | some id =>
    cases fault with
    | some f => left; simp [deleteTodo, hid, Store.DeleteOne]
    | none =>
      by_cases hmem : id ∈ st.ids
      · right; exact ⟨id, rfl, hmem, by rw [deleteTodo_found st hid hmem],
          by rw [deleteTodo_found st hid hmem]⟩
      · left; rw [deleteTodo_missing st hid hmem]; simp

/-! ## The data-model invariant -/

theorem invariant_of_docs_eq {st st1 : Store} (h : st1.docs = st.docs) (hinv : st.Invariant) :
    st1.Invariant := by
  unfold Store.Invariant Store.ids at *
  rw [h]
  exact hinv

/-- C10: the predicate "every document has a non-empty body and no two documents
share an id" is preserved by every call of `getTodos`, `createTodo`,
`updateTodo` and `deleteTodo`, for every request and every store outcome; and
`updateTodo` leaves the id and the body of every document as they were. -/
theorem invariant_preserved (findFault allFault fault : Option String) (newID : ObjectID)
    (req : RequestBody) (idParam : String) (st : Store) (hinv : st.Invariant) :
    (getTodos findFault allFault st).2.Invariant ∧
      (createTodo fault newID req st).2.Invariant ∧
      (updateTodo fault idParam st).2.Invariant ∧
      (deleteTodo fault idParam st).2.Invariant ∧
      (updateTodo fault idParam st).2.docs.map Todo.ID = st.docs.map Todo.ID ∧
      (updateTodo fault idParam st).2.docs.map Todo.Body = st.docs.map Todo.Body := by
  have hupd_id : (updateTodo fault idParam st).2.docs.map Todo.ID = st.docs.map Todo.ID := by
    rcases updateTodo_effect fault idParam st with h | ⟨id, h⟩
    · rw [h]
    · rw [h, setCompletedFirst_map_ID]
  have hupd_body :
      (updateTodo fault idParam st).2.docs.map Todo.Body = st.docs.map Todo.Body := by
    rcases updateTodo_effect fault idParam st with h | ⟨id, h⟩
    · rw [h]
    · rw [h, setCompletedFirst_map_Body]
  refine ⟨invariant_of_docs_eq (getTodos_docs _ _ st) hinv, ?_, ?_, ?_, hupd_id, hupd_body⟩
  · rcases createTodo_effect fault newID req st with ⟨_, h⟩ | ⟨t, _, h, hb, hfresh⟩
    · exact invariant_of_docs_eq h hinv
    · obtain ⟨hbody, hnd⟩ := hinv
      unfold Store.Invariant Store.ids at *
      rw [h]
      refine ⟨?_, ?_⟩
      · intro x hx
        rcases List.mem_append.mp hx with hx | hx
        · exact hbody x hx
        · rw [List.mem_singleton.mp hx]; exact hb
      · rw [List.map_append, List.nodup_append]
        refine ⟨hnd, by simp, ?_⟩
        intro a ha hb2
        simp only [List.map_cons, List.map_nil, List.mem_singleton] at hb2
        subst hb2
        exact hfresh ha
  · obtain ⟨hbody, hnd⟩ := hinv
    unfold Store.Invariant Store.ids at *
    rw [hupd_id]
    refine ⟨?_, hnd⟩
    intro x hx
    have hx2 : x.Body ∈ (updateTodo fault idParam st).2.docs.map Todo.Body :=
      List.mem_map_of_mem _ hx
    rw [hupd_body] at hx2
    obtain ⟨y, hy, hyx⟩ := List.mem_map.mp hx2
    rw [← hyx]
    exact hbody y hy
  · rcases deleteTodo_effect fault idParam st with ⟨_, h⟩ | ⟨id, _, _, _, h⟩
    · exact invariant_of_docs_eq h hinv
    · obtain ⟨hbody, hnd⟩ := hinv
      unfold Store.Invariant Store.ids at *
      rw [h]
      exact ⟨fun x hx => hbody x ((List.eraseP_sublist st.docs).subset hx),
        hnd.sublist (eraseP_map_ID_sublist id st.docs)⟩

theorem invariant_preserved_witness :
    (getTodos none none ⟨[⟨sampleID 7, false, "buy milk"⟩], []⟩).2.Invariant ∧
      (createTodo none (sampleID 7) (.fields none none (some "walk dog"))
        ⟨[⟨sampleID 7, false, "buy milk"⟩], []⟩).2.Invariant ∧
      (updateTodo none "000000000000000000000007"
        ⟨[⟨sampleID 7, false, "buy milk"⟩], []⟩).2.Invariant ∧
      (deleteTodo none "000000000000000000000007"
        ⟨[⟨sampleID 7, false, "buy milk"⟩], []⟩).2.Invariant ∧
      (updateTodo none "000000000000000000000007"
          ⟨[⟨sampleID 7, false, "buy milk"⟩], []⟩).2.docs.map Todo.ID =
        (Store.mk [⟨sampleID 7, false, "buy milk"⟩] []).docs.map Todo.ID ∧
      (updateTodo none "000000000000000000000007"
          ⟨[⟨sampleID 7, false, "buy milk"⟩], []⟩).2.docs.map Todo.Body =
        (Store.mk [⟨sampleID 7, false, "buy milk"⟩] []).docs.map Todo.Body :=
  invariant_preserved none none none (sampleID 7) (.fields none none (some "walk dog"))
    "000000000000000000000007" ⟨[⟨sampleID 7, false, "buy milk"⟩], []⟩ (by decide)

/-! ## Creates, then deletes, then a listing -/

theorem runCreates_all_created : ∀ (cs : List CreateCall) (st : Store), st.ids.Nodup →
    (∀ r ∈ (runCreates cs st).1, r.status = 201) →
    ∃ created : List Todo,
      (runCreates cs st).1 = created.map (fun t => ⟨201, .todo t⟩) ∧
      (runCreates cs st).2.docs = st.docs ++ created ∧
      created.length = cs.length ∧
      (runCreates cs st).2.ids.Nodup
  | [], st, hnd, _ => ⟨[], rfl, by simp [runCreates], rfl, hnd⟩
  | c :: cs, st, hnd, hall => by
    have hhead : (createTodo c.fault c.newID c.req st).1.status = 201 :=
      hall _ (by simp [runCreates])
    rcases createTodo_effect c.fault c.newID c.req st with ⟨hne, _⟩ | ⟨t, hresp, hdocs, _, hfresh⟩
    · exact absurd hhead hne
    · have hnd1 : (createTodo c.fault c.newID c.req st).2.ids.Nodup := by
        unfold Store.ids at *
        rw [hdocs, List.map_append, List.nodup_append]
        refine ⟨hnd, by simp, ?_⟩
        intro a ha hb
        simp only [List.map_cons, List.map_nil, List.mem_singleton] at hb
        subst hb
        exact hfresh ha
      obtain ⟨created, h1, h2, h3, h4⟩ :=
        runCreates_all_created cs (createTodo c.fault c.newID c.req st).2 hnd1
          (fun r hr => hall r (by simp [runCreates, hr]))
      refine ⟨t :: created, ?_, ?_, by simp [h3], ?_⟩
      · simp [runCreates, h1, hresp]
      · simp [runCreates, h2, hdocs]
      · simpa [runCreates] using h4

theorem runDeletes_all_deleted : ∀ (ds : List DeleteCall) (st : Store), st.ids.Nodup →
    (∀ r ∈ (runDeletes ds st).1, r.status = 200) →
    (runDeletes ds st).2.docs.length + ds.length = st.docs.length ∧
      (runDeletes ds st).2.docs.Sublist st.docs ∧
      (∀ d ∈ ds, ∃ id, ObjectIDFromHex d.idParam = some id ∧ id ∈ st.ids ∧
        id ∉ (runDeletes ds st).2.ids) ∧
      (ds.map (fun d => ObjectIDFromHex d.idParam)).Nodup
  | [], st, _, _ => by simp [runDeletes]
  | d :: ds, st, hnd, hall => by
    have hhead : (deleteTodo d.fault d.idParam st).1.status = 200 :=
      hall _ (by simp [runDeletes])
    rcases deleteTodo_effect d.fault d.idParam st with ⟨hne, _⟩ | ⟨id, hid, hmem, _, hdocs⟩
    · exact absurd hhead hne
    · have hsub : (deleteTodo d.fault d.idParam st).2.docs.Sublist st.docs := by
        rw [hdocs]; exact List.eraseP_sublist st.docs
      have hids_sub : (deleteTodo d.fault d.idParam st).2.ids.Sublist st.ids := hsub.map Todo.ID
      have hnd1 : (deleteTodo d.fault d.idParam st).2.ids.Nodup := hnd.sublist hids_sub
      have hgone : id ∉ (deleteTodo d.fault d.idParam st).2.ids := by
        unfold Store.ids
        rw [hdocs]
        exact eraseP_matchesID_not_mem id st.docs hnd
      obtain ⟨h1, h2, h3, h4⟩ :=
        runDeletes_all_deleted ds (deleteTodo d.fault d.idParam st).2 hnd1
          (fun r hr => hall r (by simp [runDeletes, hr]))
      have hlen := eraseP_matchesID_length id st.docs hmem
      rw [← hdocs] at hlen
      refine ⟨?_, ?_, ?_, ?_⟩
      · simp only [runDeletes, List.length_cons]
        omega
      · exact h2.trans hsub
      · intro d1 hd1
        rcases List.mem_cons.mp hd1 with rfl | hd1
        · refine ⟨id, hid, hmem, ?_⟩
          intro hin
          exact hgone ((h2.map Todo.ID).subset hin)
        · obtain ⟨id1, hid1, hmem1, hgone1⟩ := h3 d1 hd1
          exact ⟨id1, hid1, hids_sub.subset hmem1, hgone1⟩
      · rw [List.map_cons, List.nodup_cons]
        refine ⟨?_, h4⟩
        intro hin
        obtain ⟨d1, hd1, heq⟩ := List.mem_map.mp hin
        obtain ⟨id1, hid1, hmem1, _⟩ := h3 d1 hd1
        rw [hid1, hid] at heq
        have : id1 = id := Option.some.inj heq
        subst this
        exact hgone hmem1

/-- C7: starting from the empty collection, after N calls of `createTodo` that all
respond 201 followed by M calls of `deleteTodo` that all respond 200, a
successful `getTodos` returns exactly N - M documents, each of which is one of
the created todos (same id, same body) that no delete addressed.  The M ids
deleted are then necessarily distinct ids returned by the creates, and M ≤ N. -/
theorem list_after_creates_and_deletes (cs : List CreateCall) (ds : List DeleteCall)
    (hcreated : ∀ r ∈ (runCreates cs Store.empty).1, r.status = 201)
    (hdeleted : ∀ r ∈ (runDeletes ds (runCreates cs Store.empty).2).1, r.status = 200) :
    (∃ ts : GoSlice Todo,
        (getTodos none none (runDeletes ds (runCreates cs Store.empty).2).2).1 =
          ⟨200, .todos ts⟩ ∧
        ts.elems.length = cs.length - ds.length ∧
        ∀ t ∈ ts.elems,
          (∃ c, ⟨201, .todo c⟩ ∈ (runCreates cs Store.empty).1 ∧ c.ID = t.ID ∧
            c.Body = t.Body) ∧
          ∀ d ∈ ds, ObjectIDFromHex d.idParam ≠ some t.ID) ∧
      ds.length ≤ cs.length ∧
      (ds.map (fun d => ObjectIDFromHex d.idParam)).Nodup ∧
      ∀ d ∈ ds, ∃ c, ⟨201, .todo c⟩ ∈ (runCreates cs Store.empty).1 ∧
        ObjectIDFromHex d.idParam = some c.ID := by
  obtain ⟨created, hresp, hdocs, hlen, hnd⟩ :=
    runCreates_all_created cs Store.empty (by simp [Store.ids, Store.empty]) hcreated
  have hdocs1 : (runCreates cs Store.empty).2.docs = created := by
    simpa [Store.empty] using hdocs
  obtain ⟨h1, h2, h3, h4⟩ :=
    runDeletes_all_deleted ds (runCreates cs Store.empty).2 hnd hdeleted
  obtain ⟨ts, hget, helems, _⟩ := getTodos_ok (runDeletes ds (runCreates cs Store.empty).2).2
  have hcreated_mem : ∀ t ∈ created, ⟨201, .todo t⟩ ∈ (runCreates cs Store.empty).1 := by
    intro t ht
    rw [hresp]
    exact List.mem_map_of_mem _ ht
  rw [hdocs1] at h1 h2
  refine ⟨⟨ts, by rw [hget], ?_, ?_⟩, by omega, h4, ?_⟩
  · rw [helems]; omega
  · intro t ht
    rw [helems] at ht
    refine ⟨⟨t, hcreated_mem t (h2.subset ht), rfl, rfl⟩, ?_⟩
    intro d hd heq
    obtain ⟨id, hid, _, hgone⟩ := h3 d hd
    rw [hid] at heq
    have : id = t.ID := Option.some.inj heq
    subst this
    exact hgone (List.mem_map_of_mem _ ht)
  · intro d hd
    obtain ⟨id, hid, hmem, _⟩ := h3 d hd
    unfold Store.ids at hmem
    rw [hdocs1] at hmem
    obtain ⟨c, hc, hcid⟩ := List.mem_map.mp hmem
    exact ⟨c, hcreated_mem c hc, by rw [hid, hcid]⟩


theorem list_after_creates_and_deletes_witness :
    (∀ r ∈ (runCreates sampleCreates Store.empty).1, r.status = 201) ∧
      (∀ r ∈ (runDeletes sampleDeletes (runCreates sampleCreates Store.empty).2).1,
        r.status = 200) ∧
      ((∃ ts : GoSlice Todo,
          (getTodos none none
            (runDeletes sampleDeletes (runCreates sampleCreates Store.empty).2).2).1 =
            ⟨200, .todos ts⟩ ∧
          ts.elems.length = sampleCreates.length - sampleDeletes.length ∧
          ∀ t ∈ ts.elems,
            (∃ c, ⟨201, .todo c⟩ ∈ (runCreates sampleCreates Store.empty).1 ∧ c.ID = t.ID ∧
              c.Body = t.Body) ∧
            ∀ d ∈ sampleDeletes, ObjectIDFromHex d.idParam ≠ some t.ID) ∧
        sampleDeletes.length ≤ sampleCreates.length ∧
        (sampleDeletes.map (fun d => ObjectIDFromHex d.idParam)).Nodup ∧
        ∀ d ∈ sampleDeletes, ∃ c, ⟨201, .todo c⟩ ∈ (runCreates sampleCreates Store.empty).1 ∧
          ObjectIDFromHex d.idParam = some c.ID) :=
  ⟨by decide, by decide,
   list_after_creates_and_deletes sampleCreates sampleDeletes (by decide) (by decide)⟩

end GoApi
